import Mathlib

/-!
Verification of the HireStack AI generation pipeline against its
natural-language specification.

The development shallow-embeds the Python sources under `src/`:
JSON values (the currency of every chain) become the inductive `Json`;
dictionaries become association lists with unique keys (Python dicts
preserve insertion order, which the embedding keeps); fallible Python
code (AttributeError / TypeError / ValueError paths) returns
`Except String`; Python numbers are modelled as `ℚ` (an idealization of
CPython floats: exact where the theorems below evaluate them).
-/

namespace HireStack

/-- JSON value, as produced by `json.loads` and passed between the chains.
Objects keep field order (Python dicts preserve insertion order). -/
inductive Json where
  | null : Json
  | bool (b : Bool) : Json
  | num (q : ℚ) : Json
  | str (s : String) : Json
  | arr (elts : List Json) : Json
  | obj (fields : List (String × Json)) : Json

/-- Association-list lookup of a field, mirroring Python `d[k]` / `k in d`
on a dict with unique keys (first match wins). -/
def lookupF (fields : List (String × Json)) (k : String) : Option Json :=
  (fields.lookup k)

/-- Python `d.get(k, default)`. -/
def getD (fields : List (String × Json)) (k : String) (default : Json) : Json :=
  (lookupF fields k).getD default

/-- In-place update `d[k] = v` for a key already present: the entry keeps
its position (Python dict semantics). -/
def updateF (fields : List (String × Json)) (k : String) (v : Json) :
    List (String × Json) :=
  fields.map (fun p => if p.1 = k then (k, v) else p)

/-- Python truthiness of a JSON value (`if x:`). -/
def truthy : Json → Bool
  | .null => false
  | .bool b => b
  | .num q => decide (q ≠ 0)
  | .str s => s ≠ ""
  | .arr l => !l.isEmpty
  | .obj f => !f.isEmpty

/-- Numeric view used by Python comparisons: numbers are themselves and
booleans coerce to 0/1 (`True == 1` in Python); anything else is not
comparable to a number (TypeError). -/
def toNumQ : Json → Option ℚ
  | .num q => some q
  | .bool b => some (if b then 1 else 0)
  | _ => none

/-- Python `min(bound, v)` with a numeric literal first argument: returns
`v` itself when `v < bound`, else the bound; raises TypeError when `v` is
not a number. -/
def pyMinNum (bound : ℚ) (v : Json) : Except String Json :=
  match toNumQ v with
  | some q => .ok (if q < bound then v else .num bound)
  | none => .error "TypeError: not comparable to a number"

/-- Python `max(bound, v)` with a numeric literal first argument: returns
`v` itself when `v > bound`, else the bound. -/
def pyMaxNum (bound : ℚ) (v : Json) : Except String Json :=
  match toNumQ v with
  | some q => .ok (if bound < q then v else .num bound)
  | none => .error "TypeError: not comparable to a number"

/-- The clamp `max(0, min(100, v))` applied by the gap analyzer to the
model-reported compatibility score. -/
def pyClamp0100 (v : Json) : Except String Json := do
  let m ← pyMinNum 100 v
  pyMaxNum 0 m

/-! ### Gap analyzer: `GapAnalyzerChain._validate_result`
(src/ai_engine/chains/gap_analyzer.py) -/

/-- The `defaults` table of `GapAnalyzerChain._validate_result`, in source
order. -/
def gapDefaults : List (String × Json) :=
  [("compatibility_score", .num 50),
   ("readiness_level", .str "needs-work"),
   ("executive_summary", .str ""),
   ("category_scores", .obj []),
   ("skill_gaps", .arr []),
   ("experience_gaps", .arr []),
   ("education_gaps", .arr []),
   ("certification_gaps", .arr []),
   ("project_gaps", .arr []),
   ("strengths", .arr []),
   ("recommendations", .arr []),
   ("quick_wins", .arr []),
   ("long_term_investments", .arr []),
   ("interview_readiness", .obj [])]

/-- The defaults loop: each missing key is appended (in table order) with
its default.  The table's keys are pairwise distinct, so checking
membership against the original dict is equivalent to the Python loop
that checks against the growing dict. -/
def addDefaults (fields : List (String × Json)) (ds : List (String × Json)) :
    List (String × Json) :=
  fields ++ ds.filter (fun d => (lookupF fields d.1).isNone)

/-- Sort key of one recommendation entry: `x.get("priority", 99)`,
viewed as a number.  `none` marks entries on which Python's
`sorted` would raise (non-dict entries, or a priority that is not a
number; all-string priorities, which CPython would order
lexicographically, are likewise modelled as errors — no claim concerns
them). -/
def recKey : Json → Option ℚ
  | .obj f => toNumQ (getD f "priority" (.num 99))
  | _ => none

/-- Total version of the sort key (only applied under the guard that
every key is defined). -/
def recKeyT (x : Json) : ℚ := (recKey x).getD 99

/-- Comparison used to sort recommendations: ascending `recKeyT`. -/
def recLE (x y : Json) : Prop := recKeyT x ≤ recKeyT y

instance : DecidableRel recLE := fun x y =>
  inferInstanceAs (Decidable (recKeyT x ≤ recKeyT y))

instance : IsTotal Json recLE := ⟨fun x y => le_total (recKeyT x) (recKeyT y)⟩

instance : IsTrans Json recLE := ⟨fun _ _ _ h h' => le_trans h h'⟩

/-- Python `sorted(recs, key=lambda x: x.get("priority", 99))`.
Insertion sort is stable, like CPython's sort, so the two agree on every
input on which the keys are defined. -/
def sortRecs (recs : List Json) : Except String (List Json) :=
  if recs.all (fun x => (recKey x).isSome) then
    .ok (List.insertionSort recLE recs)
  else
    .error "TypeError: unorderable recommendation entries"

/-- The final block of `_validate_result`:
`if result.get("recommendations"): result["recommendations"] = sorted(...)`.
A falsy value (empty list, or any other falsy value) skips the sort; a
truthy non-list raises when Python iterates it with `.get` key lookups. -/
def sortRecsStep (r2 : List (String × Json)) :
    Except String (List (String × Json)) :=
  match lookupF r2 "recommendations" with
  | some (.arr []) => pure r2
  | some (.arr recs) => do
      let sorted ← sortRecs recs
      pure (updateF r2 "recommendations" (.arr sorted))
  | some other =>
      if truthy other then .error "TypeError: recommendations not sortable"
      else pure r2
  | none => pure r2

/-- Shallow embedding of `GapAnalyzerChain._validate_result`:
clamp `compatibility_score` when present, fill the missing defaults,
and sort a (truthy) recommendation list by priority. -/
def validateGapResult (result : List (String × Json)) :
    Except String (List (String × Json)) := do
  let r1 ← match lookupF result "compatibility_score" with
    | none => pure result
    | some v => do
        let w ← pyClamp0100 v
        pure (updateF result "compatibility_score" w)
  sortRecsStep (addDefaults r1 gapDefaults)

/-! ### Gap analyzer fast path: `calculate_compatibility_score` and
`_parse_duration` (src/ai_engine/chains/gap_analyzer.py) -/

/-- Python `str.lower()` (ASCII range; the sources only feed it ASCII). -/
def lowerChars (s : List Char) : List Char := s.map Char.toLower

/-- Characters matched by the regex class `\s` (Python, ASCII range). -/
def pyIsSpace (c : Char) : Bool :=
  c = ' ' || c = '\t' || c = '\n' || c = '\r' || c = '\x0b' || c = '\x0c'

/-- Drop the whitespace matched by a greedy `\s*`. -/
def skipWs (s : List Char) : List Char := s.dropWhile pyIsSpace

/-- Numeric value of a digit string (used for regex capture groups). -/
def natOfDigits (ds : List Char) : ℕ :=
  ds.foldl (fun n c => 10 * n + (c.toNat - '0'.toNat)) 0

/-- Value of a capture `intPart[.fracPart]` as Python `float(...)` reads it
(idealized to an exact rational). -/
def ratOfDigits (intPart fracPart : List Char) : ℚ :=
  (natOfDigits intPart : ℚ) + (natOfDigits fracPart : ℚ) / (10 : ℚ) ^ fracPart.length

/-- Does `lit` occur literally at the head of `s`? -/
def matchLit (lit : String) (s : List Char) : Bool :=
  lit.toList.isPrefixOf s

/-- Try to match the regex `(\d+\.?\d*)\s*year` anchored at the head of
`s`, returning the numeric value of the capture group.  Greedy digit
runs with the one productive backtracking point (the optional dot)
reproduce `re.search`'s behaviour at a fixed start position. -/
def matchYearAt (s : List Char) : Option ℚ :=
  let p1 := s.span Char.isDigit
  if p1.1.isEmpty then none
  else
    let withDot : Option ℚ :=
      match p1.2 with
      | '.' :: r2 =>
          let p2 := r2.span Char.isDigit
          if matchLit "year" (skipWs p2.2) then some (ratOfDigits p1.1 p2.1) else none
      | _ => none
    match withDot with
    | some v => some v
    | none => if matchLit "year" (skipWs p1.2) then some (ratOfDigits p1.1 []) else none

/-- Try to match the regex `(\d+)\s*month` anchored at the head of `s`. -/
def matchMonthAt (s : List Char) : Option ℚ :=
  let p1 := s.span Char.isDigit
  if p1.1.isEmpty then none
  else if matchLit "month" (skipWs p1.2) then some ((natOfDigits p1.1 : ℚ)) else none

/-- Leftmost match of an anchored matcher, as `re.search` scans start
positions left to right. -/
def findFirst (m : List Char → Option ℚ) : List Char → Option ℚ
  | [] => none
  | c :: rest =>
      match m (c :: rest) with
      | some v => some v
      | none => findFirst m rest

/-- Shallow embedding of `GapAnalyzerChain._parse_duration` on a string
input: lowercase, add the value of the first `(\d+\.?\d*)\s*year` match
(if any) and a twelfth of the first `(\d+)\s*month` match (if any). -/
def parseDurationStr (s : String) : ℚ :=
  let ls := lowerChars s.toList
  ((findFirst matchYearAt ls).getD 0) + ((findFirst matchMonthAt ls).getD 0) / 12

/-- Duration value as `_parse_duration(str(x).lower())` sees it.  A string
parses via the regexes; `None`, booleans and bare numbers stringify to
text with no `year`/`month` substring, hence contribute 0.  `str()` of a
container (whose Python repr could accidentally contain `year`) is left
unmodelled. -/
def durationYears : Json → Except String ℚ
  | .str s => .ok (parseDurationStr s)
  | .null => .ok 0
  | .bool _ => .ok 0
  | .num _ => .ok 0
  | _ => .error "unmodelled: str() of a list or dict duration"

/-- Python iteration over a value whose elements immediately receive a
`.get` call: lists yield their elements; empty strings and empty dicts
yield nothing; any other value raises (TypeError for non-iterables,
AttributeError on the first string element otherwise). -/
def iterElems : Json → Except String (List Json)
  | .arr l => .ok l
  | .str s => if s.isEmpty then .ok [] else .error "AttributeError: get on str"
  | .obj f => if f.isEmpty then .ok [] else .error "AttributeError: get on str key"
  | _ => .error "TypeError: not iterable"

/-- The set `set(s.get("name", "").lower() for s in <skills>)` built by
`calculate_compatibility_score` for both the candidate and the
benchmark. -/
def skillNameSet (skillsVal : Json) : Except String (Finset String) := do
  let l ← iterElems skillsVal
  let names ← l.mapM (fun s =>
    match s with
    | .obj f =>
        match getD f "name" (.str "") with
        | .str t => Except.ok t.toLower
        | _ => Except.error "AttributeError: lower on non-string name"
    | _ => Except.error "AttributeError: get on non-dict skill")
  pure names.toFinset

/-- Total experience years summed over the profile's experience entries,
each read as `self._parse_duration(e.get("duration", "0"))`. -/
def totalExpYears (expVal : Json) : Except String ℚ := do
  let l ← iterElems expVal
  let ys ← l.mapM (fun e =>
    match e with
    | .obj f => durationYears (getD f "duration" (.str "0"))
    | _ => Except.error "AttributeError: get on non-dict experience")
  pure ys.sum

/-- The benchmark's required years:
`benchmark.get("ideal_profile", {}).get("years_experience", 5)`,
which must be a number (else `max(required_years, 1)` raises). -/
def requiredYears (benchmark : List (String × Json)) : Except String ℚ :=
  match getD benchmark "ideal_profile" (.obj []) with
  | .obj f =>
      match toNumQ (getD f "years_experience" (.num 5)) with
      | some q => .ok q
      | none => .error "TypeError: max on non-number"
  | _ => .error "AttributeError: get on non-dict ideal_profile"

/-- Shallow embedding of `GapAnalyzerChain.calculate_compatibility_score`:
base 50, plus `int(skill_match * 25)` when the benchmark's skill-name set
is non-empty, plus `int(exp_ratio * 25)` where
`exp_ratio = min(user_years / max(required_years, 1), 1.0)`, the total
clamped by `min(100, max(0, score))`.  Python's `int()` truncation
coincides with the floor on these non-negative values. -/
def calcCompat (profile benchmark : List (String × Json)) : Except String ℤ := do
  let userNames ← skillNameSet (getD profile "skills" (.arr []))
  let reqNames ← skillNameSet (getD benchmark "ideal_skills" (.arr []))
  let s1 : ℤ := 50 +
    (if 0 < reqNames.card then
      ⌊(((userNames ∩ reqNames).card : ℚ) / (reqNames.card : ℚ)) * 25⌋
     else 0)
  let years ← totalExpYears (getD profile "experience" (.arr []))
  let reqYears ← requiredYears benchmark
  let s2 : ℤ := s1 + ⌊(min (years / max reqYears 1) 1) * 25⌋
  pure (min 100 (max 0 s2))

/-- Modelled from the spec wording of the claim (for refinement):
`50 + floor(25 * overlap) + floor(25 * min(experience_ratio, 1.0))`
clamped into `[0,100]`, with `experience_ratio` the candidate's total
parsed years divided by the benchmark's required years directly (no
`max(·, 1)` guard). -/
def claimCompat (profile benchmark : List (String × Json)) : Except String ℤ := do
  let userNames ← skillNameSet (getD profile "skills" (.arr []))
  let reqNames ← skillNameSet (getD benchmark "ideal_skills" (.arr []))
  let overlap : ℚ :=
    if reqNames.card = 0 then 0
    else ((userNames ∩ reqNames).card : ℚ) / (reqNames.card : ℚ)
  let years ← totalExpYears (getD profile "experience" (.arr []))
  let reqYears ← requiredYears benchmark
  pure (min 100 (max 0 (50 + ⌊25 * overlap⌋ + ⌊25 * min (years / reqYears) 1⌋)))

/-- The amended formula: as `claimCompat`, but the divisor is
`max(required_years, 1)` as in the source. -/
def amendedCompat (profile benchmark : List (String × Json)) : Except String ℤ := do
  let userNames ← skillNameSet (getD profile "skills" (.arr []))
  let reqNames ← skillNameSet (getD benchmark "ideal_skills" (.arr []))
  let overlap : ℚ :=
    if reqNames.card = 0 then 0
    else ((userNames ∩ reqNames).card : ℚ) / (reqNames.card : ℚ)
  let years ← totalExpYears (getD profile "experience" (.arr []))
  let reqYears ← requiredYears benchmark
  pure (min 100 (max 0 (50 + ⌊25 * overlap⌋ + ⌊25 * min (years / max reqYears 1) 1⌋)))

/-! ### Completion client: `AIClient.complete_json`, `_extract_json`,
`_parse_json`, and the tenacity retry decorator (src/ai_engine/client.py) -/

/-- JSON whitespace accepted by `json.loads` between tokens. -/
def jsonWs (c : Char) : Bool := c = ' ' || c = '\t' || c = '\n' || c = '\r'

/-- Match a literal token and return the given value. -/
def parseLit (lit : String) (j : Json) (s : List Char) : Option (Json × List Char) :=
  if matchLit lit s then some (j, s.drop lit.length) else none

/-- Read a JSON string literal body (no escape sequences — the inputs the
theorems evaluate contain none; a backslash makes the parse fail). -/
def parseStrBody : List Char → Option (String × List Char)
  | [] => none
  | '"' :: rest => some ("", rest)
  | '\\' :: _ => none
  | c :: rest => (parseStrBody rest).map (fun p => (String.mk (c :: p.1.toList), p.2))

/-- Read a JSON number: optional minus, integer digits, optional
fractional digits (exponents unmodelled). -/
def parseNum (s : List Char) : Option (Json × List Char) :=
  let sgn : Bool × List Char := match s with
    | '-' :: rest => (true, rest)
    | _ => (false, s)
  let p1 := sgn.2.span Char.isDigit
  if p1.1.isEmpty then none
  else
    match p1.2 with
    | '.' :: r2 =>
        let p2 := r2.span Char.isDigit
        if p2.1.isEmpty then none
        else
          some (.num (if sgn.1 then -ratOfDigits p1.1 p2.1 else ratOfDigits p1.1 p2.1), p2.2)
    | _ =>
        some (.num (if sgn.1 then -(natOfDigits p1.1 : ℚ) else (natOfDigits p1.1 : ℚ)), p1.2)

mutual

/-- Fuel-bounded recursive-descent reader for the JSON subset the
development needs (null/true/false, numbers, escape-free strings, arrays,
objects); stands in for Python's `json.loads` on that subset. -/
def parseVal : ℕ → List Char → Option (Json × List Char)
  | 0, _ => none
  | fuel + 1, s =>
    let s := s.dropWhile jsonWs
    match s with
    | [] => none
    | 'n' :: _ => parseLit "null" .null s
    | 't' :: _ => parseLit "true" (.bool true) s
    | 'f' :: _ => parseLit "false" (.bool false) s
    | '"' :: rest => (parseStrBody rest).map (fun p => (.str p.1, p.2))
    | '[' :: rest =>
        (match (rest.dropWhile jsonWs) with
         | ']' :: r2 => some (.arr [], r2)
         | _ => (parseItems fuel rest).map (fun p => (.arr p.1, p.2)))
    | '{' :: rest =>
        (match (rest.dropWhile jsonWs) with
         | '}' :: r2 => some (.obj [], r2)
         | _ => (parseFields fuel rest).map (fun p => (.obj p.1, p.2)))
    | _ => parseNum s

/-- Comma-separated array items up to the closing bracket. -/
def parseItems : ℕ → List Char → Option (List Json × List Char)
  | 0, _ => none
  | fuel + 1, s => do
    let (v, r1) ← parseVal fuel s
    match r1.dropWhile jsonWs with
    | ',' :: r2 => (parseItems fuel r2).map (fun p => (v :: p.1, p.2))
    | ']' :: r2 => some ([v], r2)
    | _ => none

/-- Comma-separated object members up to the closing brace. -/
def parseFields : ℕ → List Char → Option (List (String × Json) × List Char)
  | 0, _ => none
  | fuel + 1, s =>
    match s.dropWhile jsonWs with
    | '"' :: rest => do
        let (k, r1) ← parseStrBody rest
        match r1.dropWhile jsonWs with
        | ':' :: r2 => do
            let (v, r3) ← parseVal fuel r2
            (match r3.dropWhile jsonWs with
             | ',' :: r4 => (parseFields fuel r4).map (fun p => ((k, v) :: p.1, p.2))
             | '}' :: r4 => some ([(k, v)], r4)
             | _ => none)
        | _ => none
    | _ => none

end

/-- The model of `json.loads`: the whole input must be one JSON value
surrounded by whitespace. -/
def loads (s : List Char) : Option Json :=
  match parseVal (2 * s.length + 8) s with
  | some (j, rest) => if (rest.dropWhile jsonWs).isEmpty then some j else none
  | none => none

/-- First index at which `pat` occurs in `s` (Python `str.find`, with
`none` for -1). -/
def findSub (pat : List Char) : List Char → Option ℕ
  | [] => if pat.isEmpty then some 0 else none
  | c :: rest =>
      if pat.isPrefixOf (c :: rest) then some 0
      else (findSub pat rest).map (· + 1)

/-- Strip characters from both ends (Python `str.strip(chars)` /
`str.strip()`). -/
def stripEnds (p : Char → Bool) (s : List Char) : List Char :=
  ((s.dropWhile p).reverse.dropWhile p).reverse

/-- Python `str.strip()` for the ASCII whitespace the sources produce. -/
def pyStrip (s : List Char) : List Char := stripEnds pyIsSpace s

/-- Shallow embedding of `AIClient._extract_json`: strip, then pull the
body out of a ```` ```json ```` fence, else out of a bare ```` ``` ````
fence, else return the content unchanged.  A fence close must lie
strictly after the open (`end > start`); otherwise Python falls through
to the next branch. -/
def extractJson (content : List Char) : List Char :=
  let c := pyStrip content
  let fenced : Option (List Char) :=
    match findSub ("```json".toList) c with
    | none => none
    | some i =>
        let st := i + 7
        match findSub ("```".toList) (c.drop st) with
        | none => none
        | some o => if 0 < o then some (pyStrip ((c.drop st).take o)) else none
  match fenced with
  | some r => r
  | none =>
      match findSub ("```".toList) c with
      | none => c
      | some i =>
          let st := i + 3
          match findSub ("```".toList) (c.drop st) with
          | none => c
          | some o => if 0 < o then pyStrip ((c.drop st).take o) else c

/-- Python `str.replace` (all occurrences, left to right), with fuel equal
to the input length (each step consumes at least one character, so the
fuel never runs out on a non-empty pattern). -/
def replaceFuel (pat rep : List Char) : ℕ → List Char → List Char
  | _, [] => []
  | 0, s => s
  | fuel + 1, c :: rest =>
      if !pat.isEmpty && pat.isPrefixOf (c :: rest) then
        rep ++ replaceFuel pat rep fuel ((c :: rest).drop pat.length)
      else c :: replaceFuel pat rep fuel rest

/-- One `content.replace(pat, rep)` call. -/
def pyReplace (s : List Char) (pat rep : String) : List Char :=
  replaceFuel pat.toList rep.toList s.length s

/-- The repair pass of `AIClient._parse_json`: normalize single quotes and
Python literals before the second `json.loads` attempt. -/
def repairJson (c : List Char) : List Char :=
  pyReplace (pyReplace (pyReplace (pyReplace c "'" "\"") "None" "null") "True" "true") "False" "false"

/-- Shallow embedding of `AIClient._parse_json`: extract, try to load,
repair once and retry, and raise `ValueError` if both attempts fail. -/
def parseJsonPy (content : List Char) : Except String Json :=
  let c := extractJson content
  match loads c with
  | some j => .ok j
  | none =>
      match loads (repairJson c) with
      | some j => .ok j
      | none => .error "ValueError: Failed to parse JSON response"

/-- One model interaction as the retry loop sees it: either the backend
call raised, or it returned completion text. -/
inductive ModelTurn where
  | backendErr (msg : String) : ModelTurn
  | reply (content : String) : ModelTurn

/-- One attempt of the decorated `complete_json` body: a backend error
raises; a reply is parsed (parse failure also raises, inside the
decorated body). -/
def attemptJson : ModelTurn → Except String Json
  | .backendErr m => .error m
  | .reply c => parseJsonPy c.toList

/-- The tenacity `retry(stop=stop_after_attempt(n))` loop: each attempt
consumes the next model turn; any exception is retried until the attempt
budget is exhausted, then re-raised.  (The exponential backoff delays are
real time and are not modelled.) -/
def runRetry : ℕ → List ModelTurn → Except String Json
  | 0, _ => .error "retry budget exhausted"
  | _ + 1, [] => .error "no model turn supplied"
  | n + 1, t :: rest =>
      match attemptJson t with
      | .ok j => .ok j
      | .error e => if n = 0 then .error e else runRetry n rest

/-- Shallow embedding of `AIClient.complete_json` over a trace of model
turns: the decorated body under `stop_after_attempt(3)`. -/
def completeJson (turns : List ModelTurn) : Except String Json :=
  runRetry 3 turns

/-- Modelled from the spec wording of the claim (for refinement): backend
errors are retried up to the attempt budget, but a structural parse
failure propagates immediately without consuming further attempts. -/
def runRetryClaim : ℕ → List ModelTurn → Except String Json
  | 0, _ => .error "retry budget exhausted"
  | _ + 1, [] => .error "no model turn supplied"
  | n + 1, .backendErr e :: rest =>
      if n = 0 then .error e else runRetryClaim n rest
  | _ + 1, .reply c :: _ => parseJsonPy c.toList

/-- The claim's version of `complete_json` (no retry on parse failures). -/
def claimCompleteJson (turns : List ModelTurn) : Except String Json :=
  runRetryClaim 3 turns

/-! ### Resume profiler: `RoleProfilerChain._validate_result` and
`_clean_skill` (src/ai_engine/chains/role_profiler.py) -/

/-- The closed level enumeration of `_clean_skill`. -/
def validLevels : List String := ["beginner", "intermediate", "advanced", "expert"]

/-- Shallow embedding of `RoleProfilerChain._clean_skill`: the level is
lowercased and checked against the closed enumeration (falling back to
`"intermediate"`); name, years and category are copied through with their
defaults (`""`, `None`, `"technical"`) and no further validation.  A
non-string level raises (`.lower()` on a non-string). -/
def cleanSkill (f : List (String × Json)) : Except String (List (String × Json)) :=
  match getD f "level" (.str "intermediate") with
  | .str s0 =>
      let low := String.mk (lowerChars s0.toList)
      let lvl := if validLevels.contains low then low else "intermediate"
      .ok [("name", getD f "name" (.str "")),
           ("level", .str lvl),
           ("years", (lookupF f "years").getD .null),
           ("category", getD f "category" (.str "technical"))]
  | _ => .error "AttributeError: lower on non-string level"

/-- The typed-default empty profile: the `defaults` table of
`RoleProfilerChain._validate_result` as a JSON object (what the spec
calls the typed-default empty CandidateProfile). -/
def emptyCandidateProfile : Json :=
  .obj [("name", .null), ("title", .null), ("summary", .null),
        ("contact_info", .obj []), ("skills", .arr []), ("experience", .arr []),
        ("education", .arr []), ("certifications", .arr []), ("projects", .arr []),
        ("languages", .arr []), ("achievements", .arr [])]

/-! ### Validator: `ValidatorChain.validate_document`
(src/ai_engine/chains/validator.py) -/

/-- Does one issue entry count as critical:
`i.get("severity") == "critical"`? -/
def severityCritical : Json → Bool
  | .obj f =>
      match getD f "severity" .null with
      | .str s => s = "critical"
      | _ => false
  | _ => false

/-- Shallow embedding of the normalization tail of
`ValidatorChain.validate_document` (after the model call): read
`is_valid` with default `True`, collect the issues whose severity is
`"critical"`, and force `is_valid = False` when any exist.  Returns the
pair `(is_valid, result)` the Python method returns. -/
def validateDocument (result : List (String × Json)) :
    Except String (Json × List (String × Json)) := do
  let issues ← iterElems (getD result "issues" (.arr []))
  if issues.all (fun i => match i with | .obj _ => true | _ => false) then
    let isValid := getD result "is_valid" (.bool true)
    pure (if issues.any severityCritical then .bool false else isValid, result)
  else
    .error "AttributeError: get on non-dict issue"

/-! ### Pipeline route (src/backend/app/api/routes/generate.py) -/

/-- Phase 1 profile selection of `generate_pipeline`: when
`req.resume_text.strip()` is falsy, the profiler is never awaited and the
profile is the plain empty dict `{}`; otherwise the profiler runs and its
output is the profile.  The boolean records whether a profiling call was
issued. -/
def phase1Profile (resumeText : String) (profilerOutput : Json) : Bool × Json :=
  if (pyStrip resumeText.toList).isEmpty then (false, .obj [])
  else (true, profilerOutput)

/-- Outcome of one awaited task: it either raised or produced a value. -/
inductive Settled (α : Type) where
  | exc (msg : String) : Settled α
  | val (a : α) : Settled α

/-- The dead substitution code after the Phase-3 gather:
`cv_html = "" if isinstance(cv_html, Exception)`. -/
def settleStr : Settled String → String
  | .exc _ => ""
  | .val s => s

/-- The dead substitution code for the roadmap: `roadmap = {}` on an
exception instance. -/
def settleJson : Settled Json → Json
  | .exc _ => .obj []
  | .val j => j

/-- Phase 3's `asyncio.gather(...)` WITHOUT `return_exceptions=True`: if
any member task raised, the exception propagates out of the `await`
(modelled as the leftmost failure; with a single failing member this is
exact), and the assigned variables are plain values otherwise. -/
def gatherNoRE (cv cl : Settled String) (rm : Settled Json) :
    Except String (Settled String × Settled String × Settled Json) :=
  match cv, cl, rm with
  | .exc m, _, _ => .error m
  | _, .exc m, _ => .error m
  | _, _, .exc m => .error m
  | .val a, .val b, .val c => .ok (.val a, .val b, .val c)

/-- Shallow embedding of the Phase-3 block of `generate_pipeline`: gather
the three document tasks (no `return_exceptions`), then apply the
`isinstance(…, Exception)` substitutions to the gathered values.  An
`.error` outcome is what the endpoint's outer handler turns into an
HTTP 500. -/
def phase3 (cv cl : Settled String) (rm : Settled Json) :
    Except String (String × String × Json) :=
  match gatherNoRE cv cl rm with
  | .error e => .error e
  | .ok (c1, c2, c3) => .ok (settleStr c1, settleStr c2, settleJson c3)

/-- Modelled from the spec: Phase 3 with each member's failure caught
independently and substituted with its empty/neutral default, always
yielding a success response. -/
def phase3Claim (cv cl : Settled String) (rm : Settled Json) :
    String × String × Json :=
  (settleStr cv, settleStr cl, settleJson rm)

/-- The derived scores block of `_format_response`, as a function of the
numeric `compatibility` (read from the gap analysis with default 50) and
the number of missing keywords. -/
structure PipelineScores where
  matchScore : ℚ
  atsReadiness : ℚ
  recruiterScan : ℚ
  evidenceStrength : ℚ
  benchmarkScore : ℚ
  gapsScore : ℚ
  cvScore : ℚ
  coverLetterScore : ℚ
  overall : ℚ

/-- Shallow embedding of the `scores` dict built by `_format_response`. -/
def formatScores (compatibility : ℚ) (nMissing : ℕ) : PipelineScores :=
  let m := min 100 (max 0 compatibility)
  { matchScore := m
    atsReadiness := min 100 (m + 15)
    recruiterScan := min 100 (m + 10)
    evidenceStrength := 0
    benchmarkScore := m
    gapsScore := max 0 (100 - (nMissing : ℚ) * 8)
    cvScore := min 100 (m + 20)
    coverLetterScore := min 100 (m + 15)
    overall := m }

/-- The fixed curated vocabulary `KNOWN` of
`_extract_keywords_from_jd`, in source order. -/
def knownKeywords : List String :=
  ["javascript", "typescript", "python", "java", "go", "rust", "ruby", "php",
   "swift", "kotlin", "react", "angular", "vue", "svelte", "next", "nuxt",
   "node", "express", "django", "flask", "fastapi", "spring",
   "sql", "postgres", "mysql", "mongodb", "redis", "elasticsearch",
   "aws", "gcp", "azure", "docker", "kubernetes", "terraform",
   "git", "github", "gitlab", "jenkins", "ci", "cd",
   "graphql", "rest", "grpc", "microservices",
   "tailwind", "css", "html", "sass",
   "jest", "playwright", "cypress", "selenium",
   "figma", "agile", "scrum", "kanban",
   "machine", "learning", "ai", "ml", "nlp",
   "linux", "bash", "shell"]

/-- The punctuation set stripped from each word. -/
def punctChars : List Char :=
  ['.', ',', ';', ':', '!', '?', '(', ')', '[', ']', '{', '}', '"', '\'']

/-- Python `str.split()` with no separator: split on whitespace runs and
drop the empties. -/
def pySplitWs (s : List Char) : List (List Char) :=
  (List.splitOnP pyIsSpace s).filter (fun w => !w.isEmpty)

/-- One word as the loop cleans it:
`w.strip(".,;:!?()[]{}\"'").lower()`. -/
def cleanWord (w : List Char) : String :=
  String.mk (lowerChars (stripEnds (fun c => punctChars.contains c) w))

/-- The accumulation loop of `_extract_keywords_from_jd`: append each
cleaned word that is in the vocabulary and not yet seen. -/
def kwLoop : List (List Char) → List String → List String → List String
  | [], found, _ => found
  | w :: ws, found, seen =>
      let c := cleanWord w
      if knownKeywords.contains c && !seen.contains c then
        kwLoop ws (found ++ [c]) (c :: seen)
      else
        kwLoop ws found seen

/-- Shallow embedding of `_extract_keywords_from_jd`: lowercase, split on
whitespace, strip punctuation, keep first occurrences of vocabulary
terms, cap at 25.  A pure function — no model call appears anywhere in
its definition. -/
def extractKeywordsFromJD (jd : String) : List String :=
  (kwLoop (pySplitWs (lowerChars jd.toList)) [] []).take 25

/-- The keyword selection of `generate_pipeline` Phase 1: names of the
benchmark's ideal skills (dict entries with a truthy name), with the
fallback extraction used only when that list is empty. -/
def benchmarkKeywords (idealSkills : List Json) : List Json :=
  idealSkills.filterMap (fun s =>
    match s with
    | .obj f => (if truthy (getD f "name" .null) then some (getD f "name" (.str "")) else none)
    | _ => none)

/-- Keywords as the pipeline computes them (fallback only on an empty
benchmark-derived list). -/
def pipelineKeywords (idealSkills : List Json) (jd : String) : List Json :=
  let ks := benchmarkKeywords idealSkills
  if ks.isEmpty then (extractKeywordsFromJD jd).map Json.str else ks

/-! ### Specification-side helper definitions used to state the claims -/

/-- Clamp into `[0, 100]` as the spec words it (for comparison with the
`min`/`max` combination in the source). -/
def specClamp (c : ℚ) : ℚ :=
  if c < 0 then 0 else if 100 < c then 100 else c

/-- Keep the first occurrence of every element (reference form of the
seen-set loop in `_extract_keywords_from_jd`: output order is order of
first appearance). -/
def dedupFirst : List String → List String
  | [] => []
  | x :: xs => x :: dedupFirst (xs.filter (fun y => y != x))
termination_by l => l.length
decreasing_by
  simp only [List.length_cons]
  exact Nat.lt_succ_of_le (List.length_filter_le _ _)

/-- Does a recommendation entry lack a `priority` field (the claim's
"entry with no priority")? -/
def noPrio : Json → Bool
  | .obj f => (lookupF f "priority").isNone
  | _ => false

/-- The ordering property asserted by the claim for normalized
recommendation lists: every entry without a priority field is placed
after every entry that has one. -/
def missingLast (l : List Json) : Prop :=
  ∀ i j, (hi : i < l.length) → (hj : j < l.length) →
    noPrio (l.get ⟨i, hi⟩) = true → noPrio (l.get ⟨j, hj⟩) = false → j < i

/-- Does the validator's input contain an issue of critical severity
(on the inputs where the issue list is readable at all)? -/
def hasCriticalIssues (result : List (String × Json)) : Bool :=
  match iterElems (getD result "issues" (.arr [])) with
  | .ok l => l.any severityCritical
  | .error _ => false

/-! ## General lemmas about the embedded operations -/

theorem lookupF_cons (k k' : String) (v : Json) (l : List (String × Json)) :
    lookupF ((k, v) :: l) k' = if k' = k then some v else lookupF l k' := by
  by_cases h : k' = k
  · subst h
    simp [lookupF, List.lookup]
  · simp [lookupF, List.lookup, beq_false_of_ne h, h]

theorem lookupF_nil (k : String) : lookupF [] k = none := rfl

theorem updateF_cons (a : String) (b : Json) (t : List (String × Json))
    (k : String) (v : Json) :
    updateF ((a, b) :: t) k v =
      (if a = k then (k, v) else (a, b)) :: updateF t k v := rfl

theorem lookupF_updateF_same (l : List (String × Json)) (k : String) (v : Json)
    (h : (lookupF l k).isSome) : lookupF (updateF l k v) k = some v := by
  induction l with
  | nil => simp [lookupF, List.lookup] at h
  | cons p t ih =>
      obtain ⟨a, b⟩ := p
      by_cases hk : a = k
      · subst hk
        rw [updateF_cons, if_pos rfl, lookupF_cons, if_pos rfl]
      · have hne : k ≠ a := fun hh => hk hh.symm
        rw [lookupF_cons, if_neg hne] at h
        rw [updateF_cons, if_neg hk, lookupF_cons, if_neg hne]
        exact ih h

theorem lookupF_updateF_ne (l : List (String × Json)) (k k' : String) (v : Json)
    (h : k' ≠ k) : lookupF (updateF l k v) k' = lookupF l k' := by
  induction l with
  | nil => rfl
  | cons p t ih =>
      obtain ⟨a, b⟩ := p
      by_cases hk : a = k
      · subst hk
        rw [updateF_cons, if_pos rfl, lookupF_cons, lookupF_cons, if_neg h, ih]
        rw [if_neg (fun hh => h hh)]
      · rw [updateF_cons, if_neg hk, lookupF_cons, lookupF_cons, ih]

theorem lookupF_append (l m : List (String × Json)) (k : String) :
    lookupF (l ++ m) k =
      match lookupF l k with
      | some v => some v
      | none => lookupF m k := by
  induction l with
  | nil => simp [lookupF_nil]
  | cons p t ih =>
      obtain ⟨a, b⟩ := p
      by_cases hk : k = a
      · subst hk
        simp [lookupF_cons]
      · rw [List.cons_append, lookupF_cons, lookupF_cons, if_neg hk, if_neg hk, ih]

theorem lookupF_filter_isNone (ds l : List (String × Json)) (k : String)
    (h : lookupF l k = none) :
    lookupF (ds.filter (fun d => (lookupF l d.1).isNone)) k = lookupF ds k := by
  induction ds with
  | nil => rfl
  | cons p t ih =>
      obtain ⟨a, b⟩ := p
      by_cases hk : k = a
      · subst hk
        have : (lookupF l k).isNone = true := by simp [h]
        simp only [List.filter_cons, this, if_pos]
        rw [lookupF_cons, lookupF_cons, if_pos rfl, if_pos rfl]
      · rcases hna : (lookupF l a).isNone with _ | _
        · simp only [List.filter_cons, hna, Bool.false_eq_true, if_neg, ite_false]
          rw [lookupF_cons, if_neg hk, ih]
        · simp only [List.filter_cons, hna, if_pos]
          rw [lookupF_cons, lookupF_cons, if_neg hk, if_neg hk, ih]

theorem lookupF_addDefaults_of_some (l ds : List (String × Json)) (k : String)
    (v : Json) (h : lookupF l k = some v) :
    lookupF (addDefaults l ds) k = some v := by
  rw [addDefaults, lookupF_append, h]

theorem lookupF_addDefaults_of_none (l ds : List (String × Json)) (k : String)
    (h : lookupF l k = none) :
    lookupF (addDefaults l ds) k = lookupF ds k := by
  rw [addDefaults, lookupF_append, h, lookupF_filter_isNone _ _ _ h]

/-- A successful clamp always yields a numeric value in `[0, 100]`. -/
theorem pyClamp_ok_bounds (v w : Json) (h : pyClamp0100 v = .ok w) :
    ∃ q, toNumQ w = some q ∧ 0 ≤ q ∧ q ≤ 100 := by
  unfold pyClamp0100 at h
  simp only [bind, Except.bind] at h
  cases hv : toNumQ v with
  | none =>
      unfold pyMinNum at h
      simp only [hv] at h
      exact Except.noConfusion h
  | some q =>
      have hmin : pyMinNum 100 v = .ok (if q < 100 then v else .num 100) := by
        unfold pyMinNum; rw [hv]
      simp only [hmin] at h
      unfold pyMaxNum at h
      by_cases h1 : q < 100
      · simp only [if_pos h1, hv] at h
        by_cases h2 : 0 < q
        · simp only [if_pos h2] at h
          injection h with h
          exact ⟨q, h ▸ hv, h2.le, h1.le⟩
        · simp only [if_neg h2] at h
          injection h with h
          exact ⟨0, h ▸ rfl, le_refl 0, by norm_num⟩
      · simp only [if_neg h1,
          show toNumQ (Json.num 100) = some 100 from rfl,
          if_pos (by norm_num : (0 : ℚ) < 100)] at h
        injection h with h
        exact ⟨100, h ▸ rfl, by norm_num, le_refl 100⟩

/-- On the non-sorting branches of `sortRecsStep`, success returns the
input unchanged. -/
theorem sortRecsStep_falsy (r2 out : List (String × Json)) (other : Json)
    (hr : lookupF r2 "recommendations" = some other)
    (hnotarr : ∀ l, other ≠ .arr l)
    (h : sortRecsStep r2 = .ok out) : out = r2 := by
  unfold sortRecsStep at h
  cases other with
  | arr l => exact absurd rfl (hnotarr l)
  | null =>
      simp only [hr] at h
      injection h with h
      exact h.symm
  | bool b =>
      simp only [hr] at h
      cases b with
      | true =>
          simp only [truthy, if_pos] at h
          exact Except.noConfusion h
      | false =>
          simp only [truthy, Bool.false_eq_true, if_false] at h
          injection h with h
          exact h.symm
  | num q =>
      simp only [hr] at h
      by_cases hq : q = 0
      · rw [show truthy (Json.num q) = false by simp [truthy, hq]] at h
        simp only [Bool.false_eq_true, if_false] at h
        injection h with h
        exact h.symm
      · rw [show truthy (Json.num q) = true by simp [truthy, hq]] at h
        simp only [if_pos] at h
        exact Except.noConfusion h
  | str s =>
      simp only [hr] at h
      by_cases hs : s = ""
      · subst hs
        rw [show truthy (Json.str "") = false from rfl] at h
        simp only [Bool.false_eq_true, if_false] at h
        injection h with h
        exact h.symm
      · rw [show truthy (Json.str s) = true by simp [truthy, hs]] at h
        simp only [if_pos] at h
        exact Except.noConfusion h
  | obj f =>
      simp only [hr] at h
      cases f with
      | nil =>
          rw [show truthy (Json.obj []) = false from rfl] at h
          simp only [Bool.false_eq_true, if_false] at h
          injection h with h
          exact h.symm
      | cons p t =>
          rw [show truthy (Json.obj (p :: t)) = true from rfl] at h
          simp only [if_pos] at h
          exact Except.noConfusion h

/-- The sorting step never touches keys other than `"recommendations"`. -/
theorem sortRecsStep_lookup_ne (r2 out : List (String × Json)) (k : String)
    (h : sortRecsStep r2 = .ok out) (hk : k ≠ "recommendations") :
    lookupF out k = lookupF r2 k := by
  cases hr : lookupF r2 "recommendations" with
  | none =>
      unfold sortRecsStep at h
      simp only [hr] at h
      injection h with h
      rw [h]
  | some j =>
      cases j with
      | arr recs =>
          unfold sortRecsStep at h
          simp only [hr] at h
          cases recs with
          | nil => injection h with h; rw [h]
          | cons x xs =>
              simp only [bind, Except.bind] at h
              cases hs : sortRecs (x :: xs) with
              | error e =>
                  simp only [hs] at h
                  exact Except.noConfusion h
              | ok s =>
                  simp only [hs] at h
                  injection h with h
                  rw [← h, lookupF_updateF_ne _ _ _ _ hk]
      | null => rw [sortRecsStep_falsy r2 out _ hr (fun l hl => Json.noConfusion hl) h]
      | bool b => rw [sortRecsStep_falsy r2 out _ hr (fun l hl => Json.noConfusion hl) h]
      | num q => rw [sortRecsStep_falsy r2 out _ hr (fun l hl => Json.noConfusion hl) h]
      | str s => rw [sortRecsStep_falsy r2 out _ hr (fun l hl => Json.noConfusion hl) h]
      | obj f => rw [sortRecsStep_falsy r2 out _ hr (fun l hl => Json.noConfusion hl) h]

/-- In a list sorted by the recommendation key, a strictly smaller key
sits at a strictly smaller index. -/
theorem sorted_key_lt_imp_index_lt (l : List Json) (hs : l.Sorted recLE) :
    ∀ i j (hi : i < l.length) (hj : j < l.length),
      recKeyT (l.get ⟨i, hi⟩) < recKeyT (l.get ⟨j, hj⟩) → i < j := by
  intro i j hi hj hlt
  by_contra hij
  rcases Nat.eq_or_lt_of_le (Nat.not_lt.mp hij) with heq | hlt'
  · subst heq
    exact absurd hlt (lt_irrefl _)
  · have hrel := hs.rel_get_of_lt (a := ⟨j, hj⟩) (b := ⟨i, hi⟩) hlt'
    exact absurd hlt (not_lt.mpr hrel)

/-! ## Theorems for the claims -/

/-- C1: the claim says a single Phase-3 member failure is caught and the
endpoint still returns success with that member defaulted.  The source
gathers Phase 3 WITHOUT `return_exceptions=True` (unlike Phase 4), so the
exception propagates out of the `await`, the `isinstance(…, Exception)`
substitutions are dead code, and the outer handler turns the request into
an HTTP 500.  At the failing input (CV task raises, cover letter and
roadmap succeed) the code path yields an error, while the behaviour the
spec describes (`phase3Claim`, gathering with every failure caught)
yields the success triple with the CV defaulted to `""` — the code
contradicts its own substitution code, so this is a bug in the code, not
in the claim. -/
theorem phase3_single_failure_propagates :
    phase3 (.exc "cv generation failed") (.val "<p>cover letter</p>")
      (.val (.obj [("roadmap", .obj [("weekly_plans", .arr [])])])) =
      .error "cv generation failed" ∧
    phase3Claim (.exc "cv generation failed") (.val "<p>cover letter</p>")
      (.val (.obj [("roadmap", .obj [("weekly_plans", .arr [])])])) =
      ("", "<p>cover letter</p>", .obj [("roadmap", .obj [("weekly_plans", .arr [])])]) :=
  ⟨rfl, rfl⟩

/-- C4 counterexample: the claim says a structural parse failure
propagates immediately with no retry at this layer.  In the source the
tenacity decorator wraps the whole body of `complete_json`, including
`_parse_json`, so the `ValueError` from an unparseable reply is retried
like any other exception: with a first unparseable reply and a second
well-formed one, the code returns success (the retry consumed the second
turn), whereas the claim's immediate-propagation semantics
(`claimCompleteJson`) fails the call. -/
theorem parse_failure_retried_cex :
    completeJson [.reply "not json", .reply "{}"] = .ok (.obj []) ∧
    (claimCompleteJson [.reply "not json", .reply "{}"]).isOk = false :=
  ⟨rfl, rfl⟩

/-- C4 amended: a structural parse failure raises inside the decorated
body and is retried exactly like a transient backend error, up to 3
attempts in total; after the third failed attempt the last error
propagates, and a parseable reply returns its parsed value. -/
theorem parse_failure_retried_like_backend :
    (∀ (t : ModelTurn) (rest : List ModelTurn) (e : String),
        attemptJson t = .error e → completeJson (t :: rest) = runRetry 2 rest) ∧
    (∀ (t1 t2 t3 : ModelTurn) (rest : List ModelTurn) (e1 e2 e3 : String),
        attemptJson t1 = .error e1 → attemptJson t2 = .error e2 →
        attemptJson t3 = .error e3 →
        completeJson (t1 :: t2 :: t3 :: rest) = .error e3) ∧
    (∀ (c : String) (j : Json) (rest : List ModelTurn),
        parseJsonPy c.toList = .ok j → completeJson (.reply c :: rest) = .ok j) := by
  refine ⟨?_, ?_, ?_⟩
  · intro t rest e h
    simp [completeJson, runRetry, h]
  · intro t1 t2 t3 rest e1 e2 e3 h1 h2 h3
    simp [completeJson, runRetry, h1, h2, h3]
  · intro c j rest h
    simp only [String.toList] at h
    simp [completeJson, runRetry, attemptJson, h]

/-- C4 witness: the amended behaviour applied at a concrete trace — the
unparseable first reply consumes one attempt and the loop continues with
a budget of 2. -/
theorem parse_failure_retried_like_backend_witness :
    completeJson [.reply "not json", .reply "{}"] = runRetry 2 [.reply "{}"] :=
  parse_failure_retried_like_backend.1 (.reply "not json") [.reply "{}"]
    "ValueError: Failed to parse JSON response" rfl

/-- C6: the derived scores block of `_format_response` is the stated
deterministic function of the gap analysis's compatibility score:
match is the clamp into `[0,100]`, ATS readiness and recruiter scan add
15 and 10 capped at 100, evidence strength is the constant 0, and the
overall score equals the match score. -/
theorem derived_scores_formula (c : ℚ) (n : ℕ) :
    (formatScores c n).matchScore = specClamp c ∧
    (formatScores c n).atsReadiness = min 100 ((formatScores c n).matchScore + 15) ∧
    (formatScores c n).recruiterScan = min 100 ((formatScores c n).matchScore + 10) ∧
    (formatScores c n).evidenceStrength = 0 ∧
    (formatScores c n).overall = (formatScores c n).matchScore ∧
    0 ≤ (formatScores c n).matchScore ∧ (formatScores c n).matchScore ≤ 100 := by
  have hclamp : min 100 (max 0 c) = specClamp c := by
    unfold specClamp
    rcases lt_or_le c 0 with h0 | h0
    · rw [if_pos h0, max_eq_left h0.le]
      norm_num
    · rw [if_neg (not_lt.mpr h0), max_eq_right h0]
      rcases lt_or_le 100 c with h1 | h1
      · rw [if_pos h1, min_eq_left h1.le]
      · rw [if_neg (not_lt.mpr h1), min_eq_right h1]
  refine ⟨hclamp, rfl, rfl, rfl, rfl, ?_, ?_⟩
  · exact le_min (by norm_num) (le_max_left 0 c)
  · exact min_le_left 100 _

/-- C2: for every model dict on which the gap analyzer's normalization
succeeds, the produced analysis carries a `compatibility_score` that is a
number in `[0, 100]`: a present value is clamped by
`max(0, min(100, ·))`, an absent one is replaced by the in-range default
50.  Concretely, 150 is clamped to 100, -5 to 0, and an absent score
becomes 50. -/
theorem compat_score_clamped :
    (∀ (result out : List (String × Json)), validateGapResult result = .ok out →
        ∃ v q, lookupF out "compatibility_score" = some v ∧ toNumQ v = some q ∧
          0 ≤ q ∧ q ≤ 100) ∧
    (validateGapResult [("compatibility_score", .num 150)]).map
        (fun r => lookupF r "compatibility_score") = .ok (some (.num 100)) ∧
    (validateGapResult [("compatibility_score", .num (-5))]).map
        (fun r => lookupF r "compatibility_score") = .ok (some (.num 0)) ∧
    (validateGapResult []).map (fun r => lookupF r "compatibility_score") =
      .ok (some (.num 50)) := by
  refine ⟨?_, rfl, rfl, rfl⟩
  intro result out h
  unfold validateGapResult at h
  simp only [bind, Except.bind, pure, Except.pure] at h
  cases hc : lookupF result "compatibility_score" with
  | none =>
      simp only [hc] at h
      have hd : lookupF (addDefaults result gapDefaults) "compatibility_score" =
          some (.num 50) := by
        rw [lookupF_addDefaults_of_none _ _ _ hc]; rfl
      have hfin := sortRecsStep_lookup_ne _ _ "compatibility_score" h (by decide)
      exact ⟨.num 50, 50, by rw [hfin, hd], rfl, by norm_num, by norm_num⟩
  | some v =>
      simp only [hc] at h
      cases hw : pyClamp0100 v with
      | error e => simp only [hw] at h; exact Except.noConfusion h
      | ok w =>
          simp only [hw] at h
          obtain ⟨q, hq, h0, h100⟩ := pyClamp_ok_bounds v w hw
          have hu : lookupF (updateF result "compatibility_score" w)
              "compatibility_score" = some w :=
            lookupF_updateF_same _ _ _ (by rw [hc]; rfl)
          have hd := lookupF_addDefaults_of_some _ gapDefaults _ _ hu
          have hfin := sortRecsStep_lookup_ne _ _ "compatibility_score" h (by decide)
          exact ⟨w, q, by rw [hfin, hd], hq, h0, h100⟩

/-- C2 witness: the general bound applied at the concrete model output
`{"compatibility_score": 150}`, which normalizes successfully. -/
theorem compat_score_clamped_witness :
    ∃ v q, lookupF (addDefaults
        (updateF [("compatibility_score", Json.num 150)] "compatibility_score"
          (.num 100)) gapDefaults) "compatibility_score" = some v ∧
      toNumQ v = some q ∧ 0 ≤ q ∧ q ≤ 100 :=
  compat_score_clamped.1 [("compatibility_score", .num 150)] _ rfl

/-- C3 counterexample: with a blank resume the profile actually used by
the rest of the pipeline is the plain empty dict `{}` (`user_profile =
{}` in `generate_pipeline`), which is NOT the typed-default empty
CandidateProfile of the profiler (all collection keys present and empty,
scalars null) that the claim asserts: the two dictionaries differ. -/
theorem blank_resume_profile_cex :
    phase1Profile " \t\n " (.obj [("name", .str "Ada")]) = (false, .obj []) ∧
    Json.obj [] ≠ emptyCandidateProfile := by
  refine ⟨rfl, ?_⟩
  intro hcontra
  rw [emptyCandidateProfile] at hcontra
  injection hcontra with h
  exact List.noConfusion h

/-- C3 amended: for every blank (empty or whitespace-only) resume text,
the profiler step is skipped (no profiling call is issued) and the
profile used downstream is the plain empty dict `{}` — observationally
equivalent to the typed default under `.get` access, but not literally
equal to it. -/
theorem blank_resume_skips_profiler (resumeText : String) (profilerOutput : Json)
    (h : pyStrip resumeText.toList = []) :
    phase1Profile resumeText profilerOutput = (false, .obj []) := by
  have h' : pyStrip resumeText.data = [] := h
  unfold phase1Profile
  simp [h']

/-- C3 witness: the amended behaviour at the concrete whitespace-only
resume text. -/
theorem blank_resume_skips_profiler_witness :
    phase1Profile "  \n " (.obj [("name", .str "Ada")]) = (false, .obj []) :=
  blank_resume_skips_profiler "  \n " (.obj [("name", .str "Ada")]) rfl

/-- C7 counterexample: the claim says a category outside
`{technical, soft, language, tool}` is remapped to `"technical"`.
`_clean_skill` only substitutes the default when the key is absent: the
out-of-enumeration category `"bogus"` passes through unchanged. -/
theorem skill_category_unvalidated_cex :
    cleanSkill [("name", .str "Docker"), ("category", .str "bogus")] =
      .ok [("name", .str "Docker"), ("level", .str "intermediate"),
           ("years", .null), ("category", .str "bogus")] ∧
    Json.str "bogus" ≠ Json.str "technical" := by
  refine ⟨rfl, ?_⟩
  intro h
  injection h with h
  exact absurd h (by decide)

/-- C7 amended: on every skill entry `_clean_skill` accepts, the level is
lowercased and checked against the closed enumeration with fallback
`"intermediate"` (so the output level is always in the enumeration, and
any value whose lowercase form is outside it becomes `"intermediate"`),
while the category is only defaulted to `"technical"` when absent and is
otherwise passed through without validation. -/
theorem skill_level_enum_category_passthrough
    (f out : List (String × Json)) (h : cleanSkill f = .ok out) :
    (∃ lvl, lookupF out "level" = some (.str lvl) ∧ lvl ∈ validLevels) ∧
    (∀ s0, getD f "level" (.str "intermediate") = .str s0 →
        String.mk (lowerChars s0.toList) ∉ validLevels →
        lookupF out "level" = some (.str "intermediate")) ∧
    lookupF out "category" = some (getD f "category" (.str "technical")) ∧
    lookupF out "name" = some (getD f "name" (.str "")) := by
  unfold cleanSkill at h
  cases hl : getD f "level" (.str "intermediate") with
  | str s0 =>
      simp only [hl] at h
      injection h with h
      subst h
      have hname : lookupF [("name", getD f "name" (.str "")),
          ("level", .str (if validLevels.contains (String.mk (lowerChars s0.toList))
            then String.mk (lowerChars s0.toList) else "intermediate")),
          ("years", (lookupF f "years").getD .null),
          ("category", getD f "category" (.str "technical"))] "name" =
          some (getD f "name" (.str "")) := by
        rw [lookupF_cons, if_pos rfl]
      have hlvl : ∀ lv : String, lookupF [("name", getD f "name" (.str "")),
          ("level", .str lv),
          ("years", (lookupF f "years").getD .null),
          ("category", getD f "category" (.str "technical"))] "level" =
          some (.str lv) := by
        intro lv
        rw [lookupF_cons, if_neg (by decide), lookupF_cons, if_pos rfl]
      have hcat : ∀ lv : String, lookupF [("name", getD f "name" (.str "")),
          ("level", .str lv),
          ("years", (lookupF f "years").getD .null),
          ("category", getD f "category" (.str "technical"))] "category" =
          some (getD f "category" (.str "technical")) := by
        intro lv
        rw [lookupF_cons, if_neg (by decide), lookupF_cons, if_neg (by decide),
          lookupF_cons, if_neg (by decide), lookupF_cons, if_pos rfl]
      refine ⟨?_, ?_, hcat _, hname⟩
      · by_cases hv : validLevels.contains (String.mk (lowerChars s0.toList))
        · exact ⟨String.mk (lowerChars s0.toList),
            by rw [hlvl, if_pos hv], List.elem_iff.mp hv⟩
        · refine ⟨"intermediate", ?_, by decide⟩
          rw [hlvl]
          rw [if_neg hv]
      · intro s0' hs0' hnot
        have hss : s0' = s0 := by
          injection hs0' with hJ
          exact hJ.symm
        rw [hss] at hnot
        have hvf : validLevels.contains (String.mk (lowerChars s0.toList)) = false := by
          cases hvb : validLevels.contains (String.mk (lowerChars s0.toList)) with
          | true => exact absurd (List.elem_iff.mp hvb) hnot
          | false => rfl
        rw [hlvl]
        rw [if_neg (by rw [hvf]; exact Bool.false_ne_true)]
  | null => simp only [hl] at h; exact Except.noConfusion h
  | bool b => simp only [hl] at h; exact Except.noConfusion h
  | num q => simp only [hl] at h; exact Except.noConfusion h
  | arr l => simp only [hl] at h; exact Except.noConfusion h
  | obj o => simp only [hl] at h; exact Except.noConfusion h

/-- C7 witness: the amended behaviour at a concrete skill entry whose
level `"GURU"` is outside the enumeration (it becomes `"intermediate"`)
and whose category `"soft"` passes through. -/
theorem skill_level_enum_category_passthrough_witness :
    (∃ lvl, lookupF [("name", Json.str "X"), ("level", .str "intermediate"),
        ("years", .null), ("category", .str "soft")] "level" =
        some (.str lvl) ∧ lvl ∈ validLevels) ∧
    (∀ s0, getD [("name", Json.str "X"), ("level", .str "GURU"),
        ("category", .str "soft")] "level" (.str "intermediate") = .str s0 →
        String.mk (lowerChars s0.toList) ∉ validLevels →
        lookupF [("name", Json.str "X"), ("level", .str "intermediate"),
          ("years", .null), ("category", .str "soft")] "level" =
          some (.str "intermediate")) ∧
    lookupF [("name", Json.str "X"), ("level", .str "intermediate"),
        ("years", .null), ("category", .str "soft")] "category" =
      some (getD [("name", Json.str "X"), ("level", .str "GURU"),
        ("category", .str "soft")] "category" (.str "technical")) ∧
    lookupF [("name", Json.str "X"), ("level", .str "intermediate"),
        ("years", .null), ("category", .str "soft")] "name" =
      some (getD [("name", Json.str "X"), ("level", .str "GURU"),
        ("category", .str "soft")] "name" (.str "")) :=
  skill_level_enum_category_passthrough
    [("name", .str "X"), ("level", .str "GURU"), ("category", .str "soft")]
    [("name", .str "X"), ("level", .str "intermediate"), ("years", .null),
     ("category", .str "soft")] rfl

/-- C9: whenever `validate_document`'s normalization succeeds, the
returned boolean is forced to `False` when any issue has severity
`"critical"` — overriding whatever `is_valid` the model reported — and
otherwise equals the model's reported value, defaulting to `True` when
absent; the detail dict is returned unchanged. -/
theorem validator_critical_override (result : List (String × Json))
    (b : Json) (out : List (String × Json))
    (h : validateDocument result = .ok (b, out)) :
    (hasCriticalIssues result = true → b = .bool false) ∧
    (hasCriticalIssues result = false →
        b = getD result "is_valid" (.bool true)) ∧
    out = result := by
  unfold validateDocument at h
  unfold hasCriticalIssues
  simp only [bind, Except.bind] at h
  cases hit : iterElems (getD result "issues" (.arr [])) with
  | error e => simp only [hit] at h; exact Except.noConfusion h
  | ok l =>
      simp only [hit] at h ⊢
      cases hall : l.all (fun i => match i with | .obj _ => true | _ => false) with
      | false =>
          simp only [hall, Bool.false_eq_true, if_false] at h
          exact Except.noConfusion h
      | true =>
          simp only [hall, if_true] at h
          injection h with h
          injection h with hb hout
          cases hany : l.any severityCritical with
          | true =>
              refine ⟨fun _ => ?_, fun hcontra => Bool.noConfusion hcontra, hout.symm⟩
              rw [← hb, if_pos (by rw [hany])]
          | false =>
              refine ⟨fun hcontra => Bool.noConfusion hcontra, fun _ => ?_, hout.symm⟩
              rw [← hb, if_neg (by rw [hany]; exact Bool.false_ne_true)]

/-- C9 witness: the override applied at a concrete model response that
reports `is_valid: true` but contains one critical issue — the returned
boolean is `False`. -/
theorem validator_critical_override_witness :
    (hasCriticalIssues [("is_valid", Json.bool true),
        ("issues", .arr [.obj [("severity", .str "critical")]])] = true →
      Json.bool false = .bool false) ∧
    (hasCriticalIssues [("is_valid", Json.bool true),
        ("issues", .arr [.obj [("severity", .str "critical")]])] = false →
      Json.bool false = getD [("is_valid", Json.bool true),
        ("issues", .arr [.obj [("severity", .str "critical")]])]
        "is_valid" (.bool true)) ∧
    [("is_valid", Json.bool true),
        ("issues", Json.arr [.obj [("severity", .str "critical")]])] =
      [("is_valid", Json.bool true),
        ("issues", Json.arr [.obj [("severity", .str "critical")]])] :=
  validator_critical_override
    [("is_valid", .bool true), ("issues", .arr [.obj [("severity", .str "critical")]])]
    (.bool false)
    [("is_valid", .bool true), ("issues", .arr [.obj [("severity", .str "critical")]])]
    rfl

/-- C5 counterexample: the claim says an entry with no priority field is
placed after EVERY entry that has one.  The sort key defaults a missing
priority to 99, so an entry with priority 100 sorts after a
priority-less entry: on input `[{"priority": 100}, {}]` the normalized
order is `[{}, {"priority": 100}]` — the priority-less entry comes
first. -/
theorem recommendations_missing_not_last_cex :
    (validateGapResult [("recommendations", .arr
        [.obj [("priority", .num 100)], .obj []])]).map
      (fun r => lookupF r "recommendations") =
      .ok (some (.arr [.obj [], .obj [("priority", .num 100)]])) ∧
    ¬ missingLast [.obj [], .obj [("priority", .num 100)]] := by
  refine ⟨rfl, ?_⟩
  intro hml
  have h01 := hml 0 1 (by norm_num) (by norm_num) rfl rfl
  exact absurd h01 (by norm_num)

/-- C5 amended: the normalized recommendations are the stable ascending
sort of the model's entries by the key `x.get("priority", 99)`: the
output is a permutation of the input, sorted by that key, and a strictly
smaller key always sits earlier — so a priority-less entry (key 99)
sorts after every entry with priority below 99 (in particular the
claim's example `[3, 1, none, 2] → [1, 2, 3, none]` holds) but not after
entries with priority 99 or above. -/
theorem recommendations_sorted_missing_as_99 :
    (∀ (recs : List Json) (out : List (String × Json)),
        validateGapResult [("recommendations", .arr recs)] = .ok out →
        ∃ l, lookupF out "recommendations" = some (.arr l) ∧
          l.Perm recs ∧ l.Sorted recLE ∧
          (∀ i j (hi : i < l.length) (hj : j < l.length),
            recKeyT (l.get ⟨i, hi⟩) < recKeyT (l.get ⟨j, hj⟩) → i < j)) ∧
    (validateGapResult [("recommendations", .arr
        [.obj [("priority", .num 3)], .obj [("priority", .num 1)], .obj [],
         .obj [("priority", .num 2)]])]).map
      (fun r => lookupF r "recommendations") =
      .ok (some (.arr [.obj [("priority", .num 1)], .obj [("priority", .num 2)],
        .obj [("priority", .num 3)], .obj []])) := by
  refine ⟨?_, rfl⟩
  intro recs out h
  unfold validateGapResult at h
  simp only [bind, Except.bind, pure, Except.pure] at h
  simp only [show lookupF [("recommendations", Json.arr recs)]
    "compatibility_score" = none from rfl] at h
  have hrec : lookupF (addDefaults [("recommendations", Json.arr recs)]
      gapDefaults) "recommendations" = some (.arr recs) :=
    lookupF_addDefaults_of_some _ _ _ _ rfl
  cases recs with
  | nil =>
      unfold sortRecsStep at h
      simp only [hrec] at h
      injection h with h
      refine ⟨[], by rw [← h]; exact hrec, List.Perm.refl [], List.sorted_nil, ?_⟩
      intro i j hi _ _
      exact absurd hi (Nat.not_lt_zero i)
  | cons x xs =>
      unfold sortRecsStep at h
      simp only [hrec] at h
      simp only [bind, Except.bind] at h
      cases hs : sortRecs (x :: xs) with
      | error e => simp only [hs] at h; exact Except.noConfusion h
      | ok s =>
          simp only [hs] at h
          injection h with h
          unfold sortRecs at hs
          cases hall : (x :: xs).all (fun y => (recKey y).isSome) with
          | false =>
              simp only [hall, Bool.false_eq_true, if_false] at hs
              exact Except.noConfusion hs
          | true =>
              simp only [hall, if_true] at hs
              injection hs with hs
              have hperm : s.Perm (x :: xs) := hs ▸ List.perm_insertionSort recLE (x :: xs)
              have hsort : s.Sorted recLE := hs ▸ List.sorted_insertionSort recLE (x :: xs)
              refine ⟨s, ?_, hperm, hsort, sorted_key_lt_imp_index_lt s hsort⟩
              rw [← h]
              exact lookupF_updateF_same _ _ _ (by rw [hrec]; rfl)

/-- C5 witness: the amended statement applied at the claim's own example
`[3, 1, none, 2]`, whose normalization succeeds and yields
`[1, 2, 3, none]`. -/
theorem recommendations_sorted_missing_as_99_witness :
    ∃ l, lookupF [("recommendations", Json.arr
        [.obj [("priority", .num 1)], .obj [("priority", .num 2)],
         .obj [("priority", .num 3)], .obj []]),
      ("compatibility_score", .num 50), ("readiness_level", .str "needs-work"),
      ("executive_summary", .str ""), ("category_scores", .obj []),
      ("skill_gaps", .arr []), ("experience_gaps", .arr []),
      ("education_gaps", .arr []), ("certification_gaps", .arr []),
      ("project_gaps", .arr []), ("strengths", .arr []),
      ("quick_wins", .arr []), ("long_term_investments", .arr []),
      ("interview_readiness", .obj [])] "recommendations" = some (.arr l) ∧
      l.Perm [.obj [("priority", .num 3)], .obj [("priority", .num 1)], .obj [],
        .obj [("priority", .num 2)]] ∧
      l.Sorted recLE ∧
      (∀ i j (hi : i < l.length) (hj : j < l.length),
        recKeyT (l.get ⟨i, hi⟩) < recKeyT (l.get ⟨j, hj⟩) → i < j) :=
  recommendations_sorted_missing_as_99.1
    [.obj [("priority", .num 3)], .obj [("priority", .num 1)], .obj [],
     .obj [("priority", .num 2)]]
    [("recommendations", Json.arr
        [.obj [("priority", .num 1)], .obj [("priority", .num 2)],
         .obj [("priority", .num 3)], .obj []]),
      ("compatibility_score", .num 50), ("readiness_level", .str "needs-work"),
      ("executive_summary", .str ""), ("category_scores", .obj []),
      ("skill_gaps", .arr []), ("experience_gaps", .arr []),
      ("education_gaps", .arr []), ("certification_gaps", .arr []),
      ("project_gaps", .arr []), ("strengths", .arr []),
      ("quick_wins", .arr []), ("long_term_investments", .arr []),
      ("interview_readiness", .obj [])]
    rfl

theorem dedupFirst_sublist_aux :
    ∀ (n : ℕ) (l : List String), l.length ≤ n → List.Sublist (dedupFirst l) l := by
  intro n
  induction n with
  | zero =>
      intro l hl
      rw [Nat.le_zero, List.length_eq_zero] at hl
      subst hl
      simp [dedupFirst]
  | succ n ih =>
      intro l hl
      cases l with
      | nil => simp [dedupFirst]
      | cons x xs =>
          simp only [dedupFirst]
          refine List.Sublist.cons₂ x ?_
          refine (ih _ ?_).trans (List.filter_sublist xs)
          have hf := List.length_filter_le (fun y => y != x) xs
          simp only [List.length_cons] at hl
          omega

/-- The first-occurrence dedup yields a sublist of its input: the order
of survivors is their order of first appearance. -/
theorem dedupFirst_sublist (l : List String) : List.Sublist (dedupFirst l) l :=
  dedupFirst_sublist_aux l.length l le_rfl

theorem dedupFirst_nodup_aux :
    ∀ (n : ℕ) (l : List String), l.length ≤ n → (dedupFirst l).Nodup := by
  intro n
  induction n with
  | zero =>
      intro l hl
      rw [Nat.le_zero, List.length_eq_zero] at hl
      subst hl
      simp [dedupFirst]
  | succ n ih =>
      intro l hl
      cases l with
      | nil => simp [dedupFirst]
      | cons x xs =>
          simp only [dedupFirst]
          refine List.nodup_cons.mpr ⟨?_, ?_⟩
          · intro hmem
            have hmf := (dedupFirst_sublist _).subset hmem
            have := List.of_mem_filter hmf
            simp at this
          · refine ih _ ?_
            have hf := List.length_filter_le (fun y => y != x) xs
            simp only [List.length_cons] at hl
            omega

/-- Every element the dedup keeps appears at most once. -/
theorem dedupFirst_nodup (l : List String) : (dedupFirst l).Nodup :=
  dedupFirst_nodup_aux l.length l le_rfl

/-- The accumulation loop of `_extract_keywords_from_jd` computes the
first-occurrence dedup of the vocabulary hits that are not in the seen
set. -/
theorem kwLoop_eq :
    ∀ (ws : List (List Char)) (found seen : List String),
      kwLoop ws found seen = found ++ dedupFirst ((ws.map cleanWord).filter
        (fun c => knownKeywords.contains c && !seen.contains c)) := by
  intro ws
  induction ws with
  | nil => intro found seen; simp [kwLoop, dedupFirst]
  | cons w ws ih =>
      intro found seen
      simp only [kwLoop]
      cases hc : knownKeywords.contains (cleanWord w) && !seen.contains (cleanWord w) with
      | true =>
          rw [if_pos rfl]
          rw [ih]
          rw [List.map_cons]
          rw [@List.filter_cons_of_pos String
            (fun c => knownKeywords.contains c && !seen.contains c)
            (cleanWord w) (ws.map cleanWord) hc]
          simp only [dedupFirst]
          rw [List.append_assoc, List.singleton_append]
          have hfilter : (ws.map cleanWord).filter
              (fun y => knownKeywords.contains y &&
                !((cleanWord w :: seen).contains y)) =
              ((ws.map cleanWord).filter
                (fun y => knownKeywords.contains y && !seen.contains y)).filter
                (fun y => y != cleanWord w) := by
            rw [List.filter_filter]
            apply List.filter_congr
            intro y _
            show (knownKeywords.contains y && !((cleanWord w :: seen).contains y)) =
              ((y != cleanWord w) && (knownKeywords.contains y && !seen.contains y))
            have hcc : (cleanWord w :: seen).contains y =
                ((y == cleanWord w) || seen.contains y) := rfl
            rw [hcc, show (y != cleanWord w) = !(y == cleanWord w) from rfl]
            cases knownKeywords.contains y <;> cases (y == cleanWord w) <;>
              cases seen.contains y <;> rfl
          rw [hfilter]
      | false =>
          rw [if_neg Bool.false_ne_true]
          rw [ih]
          rw [List.map_cons]
          rw [@List.filter_cons_of_neg String
            (fun c => knownKeywords.contains c && !seen.contains c)
            (cleanWord w) (ws.map cleanWord)
            (by
              show ¬(knownKeywords.contains (cleanWord w) &&
                !seen.contains (cleanWord w)) = true
              rw [hc]
              exact Bool.false_ne_true)]

/-- C8: the keyword fallback draws only from the fixed curated vocabulary,
keeps each term once in order of first appearance (it equals the
first-occurrence dedup of the cleaned token stream filtered through the
vocabulary), and caps the list at 25; on the concrete description that
mentions React twice and Postgres once it yields exactly
`["react", "postgres"]`.  It is a pure function — its definition makes
no model call — and the pipeline invokes it exactly when the benchmark
produced no named skills (an empty ideal-skill name list). -/
theorem keyword_extraction_vocab_order (jd : String) :
    extractKeywordsFromJD jd = (dedupFirst (((pySplitWs (lowerChars jd.toList)).map
      cleanWord).filter (fun c => knownKeywords.contains c))).take 25 ∧
    (extractKeywordsFromJD jd).Nodup ∧
    (∀ k, k ∈ extractKeywordsFromJD jd → k ∈ knownKeywords) ∧
    (extractKeywordsFromJD jd).length ≤ 25 ∧
    extractKeywordsFromJD "We use React and Postgres. React again." =
      ["react", "postgres"] ∧
    pipelineKeywords [] jd = (extractKeywordsFromJD jd).map Json.str := by
  have hmain : extractKeywordsFromJD jd =
      (dedupFirst (((pySplitWs (lowerChars jd.toList)).map cleanWord).filter
        (fun c => knownKeywords.contains c))).take 25 := by
    unfold extractKeywordsFromJD
    rw [kwLoop_eq, List.nil_append]
    congr 1
    congr 1
    apply List.filter_congr
    intro y _
    show (knownKeywords.contains y && !([] : List String).contains y) =
      knownKeywords.contains y
    cases knownKeywords.contains y <;> rfl
  refine ⟨hmain, ?_, ?_, ?_, by decide, rfl⟩
  · rw [hmain]
    exact (dedupFirst_nodup _).sublist (List.take_sublist _ _)
  · intro k hk
    rw [hmain] at hk
    have h1 := (List.take_sublist _ _).subset hk
    have h2 := (dedupFirst_sublist _).subset h1
    have h3 := List.of_mem_filter h2
    exact List.elem_iff.mp h3
  · rw [hmain]
    exact List.length_take_le _ _

/-- C8 witness: the membership bound applied at the concrete description,
with its hypothesis discharged by evaluation. -/
theorem keyword_extraction_vocab_order_witness :
    "react" ∈ knownKeywords :=
  (keyword_extraction_vocab_order "We use React and Postgres. React again.").2.2.1
    "react" (by decide)

/-- C10 counterexample: the claim divides the candidate's years by the
benchmark's required years directly.  The source divides by
`max(required_years, 1)`.  With required years 0.5 and a candidate
duration of "6 months" (= 0.5 years), the source computes
`exp_ratio = 0.5 / max(0.5, 1) = 0.5` and returns 62, while the claim's
formula computes `min(0.5 / 0.5, 1) = 1` and returns 75. -/
theorem estimate_compat_divisor_cex :
    calcCompat [("skills", .arr []),
        ("experience", .arr [.obj [("duration", .str "6 months")]])]
      [("ideal_skills", .arr []),
        ("ideal_profile", .obj [("years_experience", .num (1/2))])] = .ok 62 ∧
    claimCompat [("skills", .arr []),
        ("experience", .arr [.obj [("duration", .str "6 months")]])]
      [("ideal_skills", .arr []),
        ("ideal_profile", .obj [("years_experience", .num (1/2))])] = .ok 75 ∧
    (62 : ℤ) ≠ 75 := by
  have hd : parseDurationStr "6 months" = 1/2 := by
    have h1 : findFirst matchMonthAt (lowerChars "6 months".toList) = some 6 := rfl
    have h2 : findFirst matchYearAt (lowerChars "6 months".toList) = none := rfl
    simp only [parseDurationStr, h1, h2]
    norm_num
  have h3 : skillNameSet (getD [("skills", Json.arr []),
      ("experience", .arr [.obj [("duration", .str "6 months")]])] "skills"
      (.arr [])) = .ok (∅ : Finset String) := rfl
  have h4 : skillNameSet (getD [("ideal_skills", Json.arr []),
      ("ideal_profile", .obj [("years_experience", .num (1/2))])] "ideal_skills"
      (.arr [])) = .ok (∅ : Finset String) := rfl
  have h5 : requiredYears [("ideal_skills", Json.arr []),
      ("ideal_profile", .obj [("years_experience", .num (1/2))])] = .ok (1/2) := rfl
  have h6 : totalExpYears (getD [("skills", Json.arr []),
      ("experience", .arr [.obj [("duration", .str "6 months")]])] "experience"
      (.arr [])) = .ok (parseDurationStr "6 months" + 0) := rfl
  rw [hd] at h6
  refine ⟨?_, ?_, by norm_num⟩
  · simp only [calcCompat, h3, h4, h5, h6, bind, Except.bind, pure, Except.pure]
    norm_num
  · simp only [claimCompat, h3, h4, h5, h6, bind, Except.bind, pure, Except.pure]
    norm_num

/-- C10 amended: the fast-path score equals the closed formula
`clamp(50 + floor(25 * overlap) + floor(25 * min(years / max(required, 1), 1)))`,
where overlap is the fraction of the benchmark's (lowercased) skill names
also among the candidate's (0 when the benchmark names none), years is
the regex-parsed total of the candidate's durations, and required years
defaults to 5 when absent — i.e. the claim with the divisor guarded by
`max(·, 1)`. -/
theorem estimate_compat_formula (profile benchmark : List (String × Json)) :
    calcCompat profile benchmark = amendedCompat profile benchmark := by
  unfold calcCompat amendedCompat
  simp only [bind, Except.bind]
  cases h1 : skillNameSet (getD profile "skills" (.arr [])) with
  | error e => rfl
  | ok u =>
      cases h2 : skillNameSet (getD benchmark "ideal_skills" (.arr [])) with
      | error e => rfl
      | ok r =>
          cases h3 : totalExpYears (getD profile "experience" (.arr [])) with
          | error e => rfl
          | ok y =>
              cases h4 : requiredYears benchmark with
              | error e => rfl
              | ok q =>
                  simp only [pure, Except.pure]
                  refine congrArg Except.ok ?_
                  refine congrArg (fun z => min 100 (max 0 z)) ?_
                  by_cases hr : r.card = 0
                  · rw [if_neg (by omega), if_pos hr]
                    rw [show min (y / max q 1) 1 * 25 = 25 * min (y / max q 1) 1
                      from mul_comm _ _]
                    norm_num
                  · rw [if_pos (Nat.pos_of_ne_zero hr), if_neg hr]
                    rw [show ((u ∩ r).card : ℚ) / (r.card : ℚ) * 25 =
                        25 * (((u ∩ r).card : ℚ) / (r.card : ℚ)) from mul_comm _ _,
                      show min (y / max q 1) 1 * 25 = 25 * min (y / max q 1) 1
                        from mul_comm _ _]

end HireStack
